import Mathlib

/-!
# gomasio: connection layer and socket.io dispatch

A shallow embedding of `conn.go` and `socketio/handler.go`, with `Emit` of the
socket.io context modelled from the specification.

* The connection (`conn.go`) is a labelled transition system.  Every blocking
  or racing point of the source (the two `select`s of `asyncWriter.Flush`, the
  `select` of the write-pump goroutine, the transport write) is one action; a
  schedule is a list of actions.
* Go channels follow the language definition: a channel made with capacity
  `n > 0` accepts a send when fewer than `n` values are buffered, a channel
  made with capacity `0` accepts a send only when the receiver is waiting.
* The muxes and `engineioHandler` (`socketio/handler.go`) are functions over a
  trace of observable effects; a Go map is a finite function; a method with a
  pointer receiver returns the receiver next to its result.
-/

namespace gomasio

/-! ## Connection layer: data -/

/-- Raw bytes. -/
abbrev Bytes := List Nat

/-- Result of one source-level step: it completes, it cannot proceed in the
current state (a blocked channel operation or a call that is not pending), or
the Go runtime panics. -/
inductive Step (σ : Type) where
  | next (s : σ)
  | blocked
  | panic (msg : String)
  deriving DecidableEq, Repr

/-- What the transport does with one message of the write-pump:
`ws.NextWriter` fails, `io.Copy` fails after `n` bytes, or both succeed. -/
inductive WriteOutcome where
  | nextWriterErr
  | copyErr (n : Nat)
  | ok
  deriving DecidableEq, Repr

/-- Control point of the write-pump goroutine started by `NewConn`. -/
inductive PumpPc where
  | selecting
  | holding (r : Nat)
  | exited
  deriving DecidableEq, Repr

/-- Control point of one `asyncWriter` with respect to `Flush`. -/
inductive FlushPc where
  | idle
  | second
  | returned (err : Option String)
  deriving DecidableEq, Repr

/-- An `asyncWriter`: its private `bytes.Buffer` and where it stands in
`Flush`.  The fields `q` and `closing` of the source are the channels of the
connection the writer belongs to. -/
structure asyncWriter where
  buf : Bytes
  pc : FlushPc
  deriving DecidableEq, Repr

/-- One use of the transport by the write-pump: the message (the buffer it
points to), the outcome, and the bytes that reached the transport writer. -/
structure Attempt where
  ref : Nat
  outcome : WriteOutcome
  bytes : Bytes
  deriving DecidableEq, Repr

/-- The case a `select` statement takes. -/
inductive SelectCase where
  | closing
  | queue
  deriving DecidableEq, Repr

/-- A connection with everything that shares its channels.
`QueueSize` and `wch` are the channel `wch` (capacity and buffered values;
a value is an `io.Reader`, here the index of the buffer it points to),
`closing` is true once `close(c.closing)` has run, `wsClosed` and
`wsCloseErr` stand for the transport `ws` (whether `ws.Close` ran and what
it returns), `pump` is the goroutine of `NewConn`, `writers` the writers made
by `NewWriter`.  `enqueued` and `attempts` are history: the messages accepted
by `wch` in order, and the transport uses of the pump in order. -/
structure conn where
  QueueSize : Nat
  wch : List Nat
  closing : Bool
  wsClosed : Bool
  wsCloseErr : Option String
  pump : PumpPc
  writers : List asyncWriter
  enqueued : List Nat
  attempts : List Attempt
  deriving DecidableEq, Repr

/-- Options of `NewConn`. -/
structure ConnOptions where
  QueueSize : Nat
  Header : Option (List (String × String))
  Jar : Option String
  deriving DecidableEq, Repr

/-- A connection option. -/
abbrev ConnOption := ConnOptions → ConnOptions

/-- `WithQueueSize`. -/
def WithQueueSize (qsize : Nat) : ConnOption :=
  fun o => { o with QueueSize := qsize }

/-- `WithHeader`. -/
def WithHeader (h : List (String × String)) : ConnOption :=
  fun o => { o with Header := some h }

/-- `WithCookieJar`. -/
def WithCookieJar (jar : String) : ConnOption :=
  fun o => { o with Jar := some jar }

/-- The options `NewConn` starts from. -/
def defaultOptions : ConnOptions :=
  { QueueSize := 100, Header := none, Jar := none }

/-- `NewConn`: the options are applied in order to the defaults, the dialer is
called (`dial` is its result: an error, or a transport whose `Close` returns
`closeErr`), and on success both channels are made and the write-pump is
started at its `select`. -/
def NewConn (opts : List ConnOption) (dial : Except String (Option String)) :
    Except String conn :=
  let options := opts.foldl (fun o opt => opt o) defaultOptions
  match dial with
  | .error err => .error err
  | .ok closeErr =>
    .ok { QueueSize := options.QueueSize, wch := [], closing := false,
          wsClosed := false, wsCloseErr := closeErr, pump := .selecting,
          writers := [], enqueued := [], attempts := [] }

/-! ## Connection layer: operations -/

/-- `conn.NewWriter`: a fresh writer with an empty buffer; the result is the
connection and the index of the writer. -/
def conn.NewWriter (c : conn) : conn × Nat :=
  ({ c with writers := c.writers ++ [{ buf := [], pc := .idle }] }, c.writers.length)

/-- The control point of writer `w`. -/
def conn.pcOf (c : conn) (w : Nat) : Option FlushPc :=
  c.writers[w]?.map (fun wr => wr.pc)

/-- The buffer of writer `w` (empty when there is no such writer). -/
def conn.bufOf (c : conn) (w : Nat) : Bytes :=
  (c.writers[w]?.map (fun wr => wr.buf)).getD []

/-- Move writer `w` to control point `pc`. -/
def conn.setPc (c : conn) (w : Nat) (pc : FlushPc) : conn :=
  { c with writers := c.writers.modify (fun wr => { wr with pc := pc }) w }

/-- Drop the first `n` bytes of the buffer of writer `w`. -/
def conn.consume (c : conn) (w : Nat) (n : Nat) : conn :=
  { c with writers := c.writers.modify (fun wr => { wr with buf := wr.buf.drop n }) w }

/-- `asyncWriter.Write`: `w.buf.Write(p)`; returns the number of bytes and a
nil error. -/
def asyncWriter.Write (c : conn) (w : Nat) (p : Bytes) : Step (conn × Nat × Option String) :=
  match c.writers[w]? with
  | none => .blocked
  | some _ =>
    .next ({ c with writers := c.writers.modify (fun wr => { wr with buf := wr.buf ++ p }) w },
           p.length, none)

/-- First `select` of `asyncWriter.Flush` (it has a `default`): when `closing`
is closed `Flush` returns nil, otherwise control reaches the second `select`. -/
def asyncWriter.FlushEnter (c : conn) (w : Nat) : Step conn :=
  match c.pcOf w with
  | none => .blocked
  | some .second => .blocked
  | some _ =>
    if c.closing then .next (c.setPc w (.returned none))
    else .next (c.setPc w .second)

/-- Second `select` of `asyncWriter.Flush`, taking case `k`.  The case
`<-w.closing` can be taken once `closing` is closed.  The case `w.q <- w.buf`
can be taken when the channel has room, or, for a channel of capacity 0, when
the write-pump is waiting at its `select`; the pump then holds the message.
Either way `Flush` returns nil. -/
def asyncWriter.FlushSelect (c : conn) (w : Nat) (k : SelectCase) : Step conn :=
  match c.pcOf w with
  | some .second =>
    match k with
    | .closing =>
      if c.closing then .next (c.setPc w (.returned none)) else .blocked
    | .queue =>
      if c.wch.length < c.QueueSize then
        .next { c.setPc w (.returned none) with
                wch := c.wch ++ [w], enqueued := c.enqueued ++ [w] }
      else if c.QueueSize = 0 ∧ c.pump = .selecting then
        .next { c.setPc w (.returned none) with
                pump := .holding w, enqueued := c.enqueued ++ [w] }
      else .blocked
  | _ => .blocked

/-- The `select` of the write-pump, taking case `k`: on `<-closing` the
goroutine returns, on `r := <-wch` it takes the message at the head. -/
def writePump.select (c : conn) (k : SelectCase) : Step conn :=
  match c.pump with
  | .selecting =>
    match k with
    | .closing => if c.closing then .next { c with pump := .exited } else .blocked
    | .queue =>
      match c.wch with
      | [] => .blocked
      | r :: rest => .next { c with wch := rest, pump := .holding r }
  | _ => .blocked

/-- The body of the write-pump for the message it holds, with outcome `o` of
the transport: on an error of `ws.NextWriter` or of `io.Copy` the loop
continues, otherwise the per-message writer is closed; in all three cases
control is back at the `select`.  `io.Copy` drains the buffer it reads. -/
def writePump.write (c : conn) (o : WriteOutcome) : Step conn :=
  match c.pump with
  | .holding r =>
    match o with
    | .nextWriterErr =>
      .next { c with pump := .selecting, attempts := c.attempts ++ [⟨r, o, []⟩] }
    | .copyErr n =>
      .next { c.consume r n with
              pump := .selecting, attempts := c.attempts ++ [⟨r, o, (c.bufOf r).take n⟩] }
    | .ok =>
      .next { c.consume r (c.bufOf r).length with
              pump := .selecting, attempts := c.attempts ++ [⟨r, o, c.bufOf r⟩] }
  | _ => .blocked

/-- `conn.Close`: `close(c.closing)`, which panics on a closed channel, then
`c.ws.Close()`, whose error is returned. -/
def conn.Close (c : conn) : Step (conn × Option String) :=
  if c.closing then .panic "close of closed channel"
  else .next ({ c with closing := true, wsClosed := true }, c.wsCloseErr)

/-! ## Connection layer: schedules -/

/-- One action of some goroutine on the connection. -/
inductive Action where
  | newWriter
  | write (w : Nat) (p : Bytes)
  | flushEnter (w : Nat)
  | flushSelect (w : Nat) (k : SelectCase)
  | pumpSelect (k : SelectCase)
  | pumpWrite (o : WriteOutcome)
  | close
  deriving DecidableEq, Repr

/-- Forget the value a step returns. -/
def Step.state {σ α : Type} : Step (σ × α) → Step σ
  | .next s => .next s.1
  | .blocked => .blocked
  | .panic m => .panic m

/-- Perform one action. -/
def step (c : conn) : Action → Step conn
  | .newWriter => .next c.NewWriter.1
  | .write w p => (asyncWriter.Write c w p).state
  | .flushEnter w => asyncWriter.FlushEnter c w
  | .flushSelect w k => asyncWriter.FlushSelect c w k
  | .pumpSelect k => writePump.select c k
  | .pumpWrite o => writePump.write c o
  | .close => (conn.Close c).state

/-- Perform a schedule, stopping at the first action that does not complete. -/
def run (c : conn) : List Action → Step conn
  | [] => .next c
  | a :: as =>
    match step c a with
    | .next c' => run c' as
    | .blocked => .blocked
    | .panic m => .panic m

/-- The message the pump holds, if any. -/
def PumpPc.inflight : PumpPc → List Nat
  | .holding r => [r]
  | _ => []

/-- The messages the pump has handed to the transport, in order: one per use
of the transport, whatever its outcome. -/
def conn.handed (c : conn) : List Nat :=
  c.attempts.map (fun a => a.ref)

/-- The messages the transport has taken in full, in order. -/
def conn.delivered (c : conn) : List Nat :=
  (c.attempts.filter (fun a => a.outcome = .ok)).map (fun a => a.ref)

/-- The messages taken from the queue so far, in order. -/
def conn.dequeued (c : conn) : List Nat :=
  c.handed ++ c.pump.inflight

/-- The schedule in which the pump, alone, takes one message per outcome. -/
def pumpSchedule : List WriteOutcome → List Action
  | [] => []
  | o :: os => .pumpSelect .queue :: .pumpWrite o :: pumpSchedule os

/-- A connection right after `NewConn` succeeded with queue size `q`. -/
def freshConn (q : Nat) (closeErr : Option String) : conn :=
  { QueueSize := q, wch := [], closing := false, wsClosed := false,
    wsCloseErr := closeErr, pump := .selecting, writers := [],
    enqueued := [], attempts := [] }

/-- A closed connection whose queue of size 1 is full; writer 1 has not
flushed yet. -/
def closedFull : conn :=
  { QueueSize := 1, wch := [0], closing := true, wsClosed := true, wsCloseErr := none,
    pump := .selecting,
    writers := [{ buf := [104], pc := .returned none }, { buf := [105], pc := .idle }],
    enqueued := [0], attempts := [] }

/-- The schedule that leads from a fresh connection to `closedFull`. -/
def closedFullSchedule : List Action :=
  [.newWriter, .newWriter, .write 0 [104], .write 1 [105], .flushEnter 0,
   .flushSelect 0 .queue, .close]

/-- An open connection with queue size 0 on which writer 0 stands at the second
`select` of `Flush` and the pump waits at its own. -/
def unbufferedWaiting : conn :=
  { QueueSize := 0, wch := [], closing := false, wsClosed := false, wsCloseErr := none,
    pump := .selecting, writers := [{ buf := [104, 105], pc := .second }],
    enqueued := [], attempts := [] }

/-- The schedule that leads from a fresh connection to `unbufferedWaiting`. -/
def unbufferedSchedule : List Action :=
  [.newWriter, .write 0 [104, 105], .flushEnter 0]

/-- An open connection with two queued messages and an idle pump. -/
def twoQueued : conn :=
  { QueueSize := 2, wch := [0, 1], closing := false, wsClosed := false, wsCloseErr := none,
    pump := .selecting,
    writers := [{ buf := [104], pc := .returned none }, { buf := [105], pc := .returned none }],
    enqueued := [0, 1], attempts := [] }

/-- The schedule that leads from a fresh connection to `twoQueued`. -/
def twoQueuedSchedule : List Action :=
  [.newWriter, .newWriter, .write 0 [104], .write 1 [105], .flushEnter 0,
   .flushSelect 0 .queue, .flushEnter 1, .flushSelect 1 .queue]

/-- An open connection whose queue of size 1 is full while writer 1 stands at
the second `select` of `Flush`. -/
def fullWaiting : conn :=
  { QueueSize := 1, wch := [0], closing := false, wsClosed := false, wsCloseErr := none,
    pump := .selecting,
    writers := [{ buf := [104], pc := .returned none }, { buf := [105], pc := .second }],
    enqueued := [0], attempts := [] }

/-- The schedule that leads from a fresh connection to `fullWaiting`. -/
def fullWaitingSchedule : List Action :=
  [.newWriter, .newWriter, .write 0 [104], .write 1 [105], .flushEnter 0,
   .flushSelect 0 .queue, .flushEnter 1]

/-- The queue never holds more than its capacity, and the messages accepted
so far are those handed to the transport, then the one the pump holds, then
those still queued. -/
def conn.Inv (c : conn) : Prop :=
  c.wch.length ≤ c.QueueSize ∧ c.enqueued = c.handed ++ c.pump.inflight ++ c.wch

/-- An open connection where the pump has handed message 0 to the transport
and holds message 1. -/
def pumpBusy : conn :=
  { QueueSize := 2, wch := [], closing := false, wsClosed := false, wsCloseErr := none,
    pump := .holding 1,
    writers := [{ buf := [], pc := .returned none }, { buf := [105], pc := .returned none }],
    enqueued := [0, 1],
    attempts := [{ ref := 0, outcome := .ok, bytes := [104] }] }

/-- The schedule that leads from a fresh connection to `pumpBusy`. -/
def pumpBusySchedule : List Action :=
  twoQueuedSchedule ++ [.pumpSelect .queue, .pumpWrite .ok, .pumpSelect .queue]

/-! ## Connection layer: the read path -/

/-- The frame kind `websocket.TextMessage`. -/
def TextMessage : Nat := 1

/-- The frame kind `websocket.BinaryMessage`. -/
def BinaryMessage : Nat := 2

/-- The `io.Reader` the transport hands out for one inbound message: the body
of the message and, when reading breaks off before the end, the number of bytes
delivered before the error and the error. -/
structure MessageReader where
  body : Bytes
  failure : Option (Nat × String)
  deriving DecidableEq, Repr

/-- What `ws.NextReader()` returns: frame kind, reader, error. -/
structure NextReaderResult where
  messageType : Nat
  r : MessageReader
  err : Option String
  deriving DecidableEq, Repr

/-- `bytes.Buffer.ReadFrom`: append what the reader delivers until it ends or
fails; returns the buffer, the number of bytes read and the error, nil when the
reader ended normally. -/
def Buffer.ReadFrom (buf : Bytes) (r : MessageReader) : Bytes × Nat × Option String :=
  match r.failure with
  | none => (buf ++ r.body, r.body.length, none)
  | some (n, e) => (buf ++ r.body.take n, (r.body.take n).length, some e)

/-- `conn.NextReader`, given what `c.ws.NextReader()` returns: an error of the
transport is passed on, a frame that is not text is an error, otherwise the
reader is read into a fresh buffer, the result of `ReadFrom` is dropped, and the
buffer is returned with a nil error. -/
def conn.NextReader (res : NextReaderResult) : Option Bytes × Option String :=
  match res.err with
  | some err => (none, some err)
  | none =>
    if res.messageType ≠ TextMessage then
      (none, some ("currently supports only text message: " ++ toString res.messageType))
    else
      let buf := (Buffer.ReadFrom [] res.r).1
      (some buf, none)

/-- A text frame whose reader breaks off after one of two bytes. -/
def truncatedFrame : NextReaderResult :=
  { messageType := TextMessage,
    r := { body := [104, 105], failure := some (1, "unexpected EOF") },
    err := none }

/-! ## Writers that do not queue -/

/-- An `io.Writer` over a sink of type `σ`: `Write` returns the number of bytes
written and an error. -/
structure Writer (σ : Type) where
  Write : String → σ → (Nat × Option String) × σ

/-- The interface `WriteFlusher` over a sink of type `σ`. -/
structure WriteFlusher (σ : Type) where
  Write : String → σ → (Nat × Option String) × σ
  Flush : σ → Option String × σ

/-- The interface `WriterFactory` over a sink of type `σ`. -/
structure WriterFactory (σ : Type) where
  NewWriter : σ → WriteFlusher σ × σ

/-- The struct `nopFlusher`. -/
structure nopFlusher (σ : Type) where
  w : Writer σ

/-- `nopFlusher.Write`: `f.w.Write(p)`. -/
def nopFlusher.Write {σ : Type} (f : nopFlusher σ) (p : String) (s : σ) :
    (Nat × Option String) × σ :=
  f.w.Write p s

/-- `nopFlusher.Flush`: returns nil. -/
def nopFlusher.Flush {σ : Type} (_f : nopFlusher σ) (s : σ) : Option String × σ :=
  (none, s)

/-- `NopFlusher`. -/
def NopFlusher {σ : Type} (w : Writer σ) : WriteFlusher σ :=
  { Write := nopFlusher.Write { w := w }, Flush := nopFlusher.Flush { w := w } }

/-- A `bytes.Buffer` as an `io.Writer`: the sink is its content. -/
def bytesBuffer : Writer String :=
  { Write := fun p b => ((p.utf8ByteSize, none), b ++ p) }

/-- The `testWriterFactory` of `context_test.go`: every writer is
`NopFlusher(f.w)`. -/
def testWriterFactory {σ : Type} (w : Writer σ) : WriterFactory σ :=
  { NewWriter := fun s => (NopFlusher w, s) }

/-! ## socket.io: packets, contexts and handlers -/

/-- Modelled from the spec: the packet types are declared in a file that is not
among the sources; the spec lists them with their wire digits. -/
inductive PacketType where
  | CONNECT
  | DISCONNECT
  | EVENT
  | ACK
  | ERROR
  | BINARY_EVENT
  | BINARY_ACK
  deriving DecidableEq, Repr

/-- Modelled from the spec: the wire digit of a packet type. -/
def PacketType.digit : PacketType → String
  | .CONNECT => "0"
  | .DISCONNECT => "1"
  | .EVENT => "2"
  | .ACK => "3"
  | .ERROR => "4"
  | .BINARY_EVENT => "5"
  | .BINARY_ACK => "6"

/-- Modelled from the spec: `Packet` is declared in a file that is not among the
sources; it has a type, a namespace, an optional acknowledgment id and a raw
body. -/
structure Packet where
  type : PacketType
  Namespace : String
  AckId : Option Nat
  Body : Option String
  deriving DecidableEq, Repr

/-- Modelled from the spec: the interface `Context` is declared in a file that
is not among the sources.  A context binds a writer factory `wf` to one inbound
packet; the fields `PacketType`, `Namespace` and `Event` are what the methods of
these names return. -/
structure Context (W : Type) where
  wf : W
  PacketType : PacketType
  Namespace : String
  Event : String
  deriving DecidableEq, Repr

/-- An observable effect of the dispatch layer: the arguments of one call of
`internal.Log`, an application function called with a context, bytes written
through a writer factory, a connection closed. -/
inductive Effect (W : Type) where
  | logged (args : List String)
  | invoked (fn : Nat) (ctx : Context W)
  | wrote (wf : W) (bytes : String)
  | closed
  deriving DecidableEq, Repr

/-- The effects so far, oldest first. -/
abbrev Trace (W : Type) := List (Effect W)

/-- Modelled from the spec: `internal.Log` is declared in a package that is not
among the sources; it reports its arguments. -/
def internal.Log {W : Type} (args : List String) (tr : Trace W) : Trace W :=
  tr ++ [.logged args]

/-- The interface `Handler`. -/
structure Handler (W : Type) where
  HandleSocketIO : Context W → Trace W → Trace W

/-- The type `HandleFunc` with its method `HandleSocketIO`, which calls `f(ctx)`. -/
def HandleFunc {W : Type} (f : Context W → Trace W → Trace W) : Handler W :=
  { HandleSocketIO := fun ctx tr => f ctx tr }

/-- An application function that only records that it was called. -/
def probe {W : Type} (fn : Nat) : Context W → Trace W → Trace W :=
  fun ctx tr => tr ++ [.invoked fn ctx]

/-- The number of calls of application functions in a trace. -/
def invocations {W : Type} (tr : Trace W) : Nat :=
  (tr.filter (fun e => match e with | .invoked _ _ => true | _ => false)).length

/-! ### EventMux -/

/-- The struct `EventMux`; a Go map is a finite function. -/
structure EventMux (W : Type) where
  handlers : String → Option (Handler W)

/-- `NewEventMux`. -/
def NewEventMux {W : Type} : EventMux W :=
  { handlers := fun _ => none }

/-- `EventMux.Handle`: `m.handlers[event] = handler`. -/
def EventMux.Handle {W : Type} (m : EventMux W) (event : String) (handler : Handler W) :
    EventMux W :=
  { handlers := fun k => if k = event then some handler else m.handlers k }

/-- `EventMux.HandleFunc`. -/
def EventMux.HandleFunc {W : Type} (m : EventMux W) (event : String)
    (handleFunc : Context W → Trace W → Trace W) : EventMux W :=
  m.Handle event (gomasio.HandleFunc handleFunc)

/-- `EventMux.HandleSocketIO`; the mux is returned with the trace. -/
def EventMux.HandleSocketIO {W : Type} (m : EventMux W) (ctx : Context W) (tr : Trace W) :
    EventMux W × Trace W :=
  let ev := ctx.Event
  match m.handlers ev with
  | some handler => (m, handler.HandleSocketIO ctx tr)
  | none => (m, internal.Log ["[INFO] handler not found: event =", ev] tr)

/-- An `EventMux` as a `Handler`. -/
def EventMux.toHandler {W : Type} (m : EventMux W) : Handler W :=
  { HandleSocketIO := fun ctx tr => (m.HandleSocketIO ctx tr).2 }

/-! ### NamespaceMux -/

/-- The struct `NamespaceMux`. -/
structure NamespaceMux (W : Type) where
  handlers : String → Option (Handler W)

/-- `NewNamespaceMux`. -/
def NewNamespaceMux {W : Type} : NamespaceMux W :=
  { handlers := fun _ => none }

/-- `NamespaceMux.Handle`: `m.handlers[namespace] = handler`. -/
def NamespaceMux.Handle {W : Type} (m : NamespaceMux W) (ns : String)
    (handler : Handler W) : NamespaceMux W :=
  { handlers := fun k => if k = ns then some handler else m.handlers k }

/-- `NamespaceMux.HandleFunc`. -/
def NamespaceMux.HandleFunc {W : Type} (m : NamespaceMux W) (ns : String)
    (handler : Context W → Trace W → Trace W) : NamespaceMux W :=
  m.Handle ns (gomasio.HandleFunc handler)

/-- `NamespaceMux.HandleSocketIO`; the mux is returned with the trace. -/
def NamespaceMux.HandleSocketIO {W : Type} (m : NamespaceMux W) (ctx : Context W)
    (tr : Trace W) : NamespaceMux W × Trace W :=
  let ns := ctx.Namespace
  match m.handlers ns with
  | some handler => (m, handler.HandleSocketIO ctx tr)
  | none => (m, internal.Log ["[INFO] handler not found: namespace =", ns] tr)

/-- A `NamespaceMux` as a `Handler`. -/
def NamespaceMux.toHandler {W : Type} (m : NamespaceMux W) : Handler W :=
  { HandleSocketIO := fun ctx tr => (m.HandleSocketIO ctx tr).2 }

/-! ### PacketTypeMux -/

/-- The struct `PacketTypeMux`. -/
structure PacketTypeMux (W : Type) where
  handlers : PacketType → Option (Handler W)

/-- `NewPacketTypeMux`. -/
def NewPacketTypeMux {W : Type} : PacketTypeMux W :=
  { handlers := fun _ => none }

/-- `PacketTypeMux.Handle`: `m.handlers[packetType] = handler`. -/
def PacketTypeMux.Handle {W : Type} (m : PacketTypeMux W) (packetType : PacketType)
    (handler : Handler W) : PacketTypeMux W :=
  { handlers := fun k => if k = packetType then some handler else m.handlers k }

/-- `PacketTypeMux.HandleFunc`. -/
def PacketTypeMux.HandleFunc {W : Type} (m : PacketTypeMux W) (packetType : PacketType)
    (handler : Context W → Trace W → Trace W) : PacketTypeMux W :=
  m.Handle packetType (gomasio.HandleFunc handler)

/-- `PacketTypeMux.HandleSocketIO`; the mux is returned with the trace. -/
def PacketTypeMux.HandleSocketIO {W : Type} (m : PacketTypeMux W) (ctx : Context W)
    (tr : Trace W) : PacketTypeMux W × Trace W :=
  let pt := ctx.PacketType
  match m.handlers pt with
  | some handler => (m, handler.HandleSocketIO ctx tr)
  | none => (m, internal.Log ["[INFO] handler not found: packetType =", pt.digit] tr)

/-- A `PacketTypeMux` as a `Handler`. -/
def PacketTypeMux.toHandler {W : Type} (m : PacketTypeMux W) : Handler W :=
  { HandleSocketIO := fun ctx tr => (m.HandleSocketIO ctx tr).2 }

/-! ### Registration sequences -/

/-- The handler registered last for key `k` in a sequence of registrations,
oldest first: only the registrations for `k` count. -/
def lastRegistered {K W : Type} [DecidableEq K] (regs : List (K × Handler W)) (k : K) :
    Option (Handler W) :=
  ((regs.filter (fun r => r.1 = k)).getLast?).map (fun r => r.2)

/-- Whether key `k` occurs in a sequence of registrations. -/
def registered {K W : Type} [DecidableEq K] (regs : List (K × Handler W)) (k : K) : Bool :=
  regs.any (fun r => r.1 = k)

/-- Perform a sequence of `Handle` calls on an `EventMux`. -/
def EventMux.register {W : Type} (m : EventMux W) (regs : List (String × Handler W)) :
    EventMux W :=
  regs.foldl (fun acc r => acc.Handle r.1 r.2) m

/-- Perform a sequence of `Handle` calls on a `NamespaceMux`. -/
def NamespaceMux.register {W : Type} (m : NamespaceMux W)
    (regs : List (String × Handler W)) : NamespaceMux W :=
  regs.foldl (fun acc r => acc.Handle r.1 r.2) m

/-- Perform a sequence of `Handle` calls on a `PacketTypeMux`. -/
def PacketTypeMux.register {W : Type} (m : PacketTypeMux W)
    (regs : List (PacketType × Handler W)) : PacketTypeMux W :=
  regs.foldl (fun acc r => acc.Handle r.1 r.2) m

/-! ### engineioHandler -/

/-- The error of `Decode`: `io.EOF`, or any other error. -/
inductive DecodeError where
  | EOF
  | malformed (msg : String)
  deriving DecidableEq, Repr

/-- The text of an error. -/
def DecodeError.Error : DecodeError → String
  | .EOF => "EOF"
  | .malformed msg => msg

/-- The functions of package `socketio` that `HandleMessage` calls and that are
declared in files not among the sources: `NewDecoder(body).Decode()`, which
returns a packet pointer and an error, and `NewContext`. -/
structure Codec (W : Type) where
  Decode : String → Option Packet × Option DecodeError
  NewContext : W → Option Packet → Except String (Context W)

/-- The struct `engineioHandler`. -/
structure engineioHandler (W : Type) where
  handler : Handler W

/-- `OverEngineIO`. -/
def OverEngineIO {W : Type} (handler : Handler W) : engineioHandler W :=
  { handler := handler }

/-- `engineioHandler.HandleMessage`. -/
def engineioHandler.HandleMessage {W : Type} (codec : Codec W) (h : engineioHandler W)
    (wf : W) (body : String) (tr : Trace W) : Trace W :=
  match codec.Decode body with
  | (p, err) =>
    if err ≠ none ∧ err ≠ some DecodeError.EOF then
      internal.Log ["[ERROR] failed to decode engine.io packet",
        (err.map DecodeError.Error).getD ""] tr
    else
      match codec.NewContext wf p with
      | .error e => internal.Log ["[ERROR] failed to construct context", e] tr
      | .ok ctx => h.handler.HandleSocketIO ctx tr

/-! ### Emit -/

/-- Modelled from the spec: a Go value given to `Emit`, by its JSON form;
`unsupported` is a value with no JSON form (the spec names cyclic structures
and unsupported types).  Numbers are integers. -/
inductive JSON where
  | null
  | bool (b : Bool)
  | num (n : Int)
  | str (s : String)
  | arr (xs : List JSON)
  | obj (kvs : List (String × JSON))
  | unsupported
  deriving Repr

/-- Modelled from the spec: a hexadecimal digit of an escape. -/
def hexDigit (n : Nat) : Char :=
  "0123456789abcdef".toList.getD n '0'

/-- Modelled from the spec: the JSON escape of one character. -/
def escapeChar (c : Char) : List Char :=
  if c = '"' then ['\\', '"']
  else if c = '\\' then ['\\', '\\']
  else if c = '\n' then ['\\', 'n']
  else if c = '\r' then ['\\', 'r']
  else if c = '\t' then ['\\', 't']
  else if c.toNat < 32 then
    ['\\', 'u', '0', '0', hexDigit (c.toNat / 16), hexDigit (c.toNat % 16)]
  else [c]

/-- Modelled from the spec: a JSON string literal. -/
def quote (s : String) : String :=
  "\"" ++ String.mk (s.toList.flatMap escapeChar) ++ "\""

mutual
/-- Modelled from the spec: the compact JSON text of a value. -/
def JSON.encode : JSON → String
  | .null => "null"
  | .bool b => if b then "true" else "false"
  | .num n => toString n
  | .str s => quote s
  | .arr xs => "[" ++ encodeElems xs ++ "]"
  | .obj kvs => "\x7b" ++ encodeMembers kvs ++ "\x7d"
  | .unsupported => ""
/-- Modelled from the spec: the elements of an array, separated by commas. -/
def encodeElems : List JSON → String
  | [] => ""
  | [x] => x.encode
  | x :: y :: rest => x.encode ++ "," ++ encodeElems (y :: rest)
/-- Modelled from the spec: the members of an object, separated by commas. -/
def encodeMembers : List (String × JSON) → String
  | [] => ""
  | [(k, v)] => quote k ++ ":" ++ v.encode
  | (k, v) :: y :: rest => quote k ++ ":" ++ v.encode ++ "," ++ encodeMembers (y :: rest)
end

mutual
/-- Modelled from the spec: whether a value has a JSON form. -/
def JSON.serializable : JSON → Bool
  | .arr xs => serializableElems xs
  | .obj kvs => serializableMembers kvs
  | .unsupported => false
  | _ => true
/-- Modelled from the spec: whether all elements have a JSON form. -/
def serializableElems : List JSON → Bool
  | [] => true
  | x :: rest => x.serializable && serializableElems rest
/-- Modelled from the spec: whether all member values have a JSON form. -/
def serializableMembers : List (String × JSON) → Bool
  | [] => true
  | (_, v) :: rest => v.serializable && serializableMembers rest
end

/-- Modelled from the spec: serialization of a value, failing as a whole when a
part has no JSON form. -/
def Marshal (v : JSON) : Except String String :=
  if v.serializable then .ok v.encode else .error "json: unsupported value"

/-- Modelled from the spec: `Emit` is declared in a file that is not among the
sources.  The array of the event name and the arguments is serialized; when
that fails the call fails and nothing is written.  Otherwise a writer is taken
from the writer factory of the context, the digit of EVENT and the array with
the message terminator are written, and the writer is flushed. -/
def Context.Emit {σ : Type} (ctx : Context (WriterFactory σ)) (event : String)
    (args : List JSON) (s : σ) : Option String × σ :=
  match Marshal (.arr (.str event :: args)) with
  | .error e => (some e, s)
  | .ok body =>
    match ctx.wf.NewWriter s with
    | (w, s0) =>
      match w.Write PacketType.EVENT.digit s0 with
      | ((_, some e), s1) => (some e, s1)
      | ((_, none), s1) =>
        match w.Write (body ++ "\n") s1 with
        | ((_, some e), s2) => (some e, s2)
        | ((_, none), s2) => w.Flush s2

/-- The context of `TestContext_Emit`: an empty packet bound to a test writer
factory over a buffer. -/
def testContext : Context (WriterFactory String) :=
  { wf := testWriterFactory bytesBuffer, PacketType := .CONNECT, Namespace := "",
    Event := "" }

/-! ### Concrete dispatch inputs -/

/-- A context for an EVENT packet named `ev` in namespace `ns`, over writer
factory 0. -/
def eventContext (ns ev : String) : Context Nat :=
  { wf := 0, PacketType := .EVENT, Namespace := ns, Event := ev }

/-- The context of an EVENT packet `news` in the root namespace. -/
def newsContext : Context Nat :=
  eventContext "/" "news"

/-- The empty trace. -/
def noEffects : Trace Nat :=
  []

/-- Three registrations by event name; `news` is registered twice. -/
def eventRegs : List (String × Handler Nat) :=
  [("news", HandleFunc (probe 1)), ("chat", HandleFunc (probe 2)),
   ("news", HandleFunc (probe 3))]

/-- Three registrations by namespace; `/` is registered twice. -/
def namespaceRegs : List (String × Handler Nat) :=
  [("/", HandleFunc (probe 4)), ("/admin", HandleFunc (probe 5)),
   ("/", HandleFunc (probe 6))]

/-- The registrations of the example client with one more for EVENT: CONNECT
goes to a function, EVENT first to a function and then to an `EventMux`. -/
def packetTypeRegs : List (PacketType × Handler Nat) :=
  [(.CONNECT, HandleFunc (probe 7)), (.EVENT, HandleFunc (probe 8)),
   (.EVENT, (NewEventMux.register eventRegs).toHandler)]

/-- A context none of whose keys is registered in `eventRegs`, `namespaceRegs`
or `packetTypeRegs`. -/
def strayContext : Context Nat :=
  { wf := 0, PacketType := .ACK, Namespace := "/other", Event := "unknown" }

/-- A decoder and context constructor for three inputs: a well-formed EVENT
packet, the empty input (end of input, no packet), anything else (malformed). -/
def stubCodec : Codec Nat :=
  { Decode := fun body =>
      if body = "2[\"news\"]" then
        (some { type := .EVENT, Namespace := "/", AckId := none, Body := some "[\"news\"]" },
         none)
      else if body = "" then (none, some .EOF)
      else (none, some (.malformed "invalid packet")),
    NewContext := fun wf p =>
      match p with
      | some pkt => .ok { wf := wf, PacketType := pkt.type, Namespace := pkt.Namespace,
                          Event := "news" }
      | none => .error "no packet" }

/-! ## Connection layer: theorems -/

theorem freshConn_inv (q : Nat) (e : Option String) : (freshConn q e).Inv := by
  simp [conn.Inv, freshConn, conn.handed, PumpPc.inflight]

theorem step_inv {c c2 : conn} {a : Action} (h : step c a = .next c2) (hi : c.Inv) :
    c2.Inv := by
  simp only [conn.Inv, conn.handed] at hi ⊢
  obtain ⟨h1, h2⟩ := hi
  cases a with
  | newWriter =>
    simp [step, conn.NewWriter] at h
    subst h
    exact ⟨h1, h2⟩
  | write w p =>
    simp only [step, asyncWriter.Write] at h
    split at h
    · simp [Step.state] at h
    · simp [Step.state] at h
      subst h
      exact ⟨h1, h2⟩
  | flushEnter w =>
    simp only [step, asyncWriter.FlushEnter] at h
    split at h
    · simp at h
    · simp at h
    · split at h <;> (simp at h; subst h; exact ⟨h1, h2⟩)
  | flushSelect w k =>
    simp only [step, asyncWriter.FlushSelect] at h
    split at h
    · cases k with
      | closing =>
        simp only at h
        split at h
        · simp at h; subst h; exact ⟨h1, h2⟩
        · simp at h
      | queue =>
        simp only at h
        split at h
        · simp at h; subst h
          refine ⟨?_, ?_⟩
          · simp [conn.setPc]; omega
          · simp [conn.setPc] at h2 ⊢
            rw [h2]; simp
        · split at h
          · rename_i hq
            obtain ⟨hq0, hp⟩ := hq
            simp at h; subst h
            have hw : c.wch = [] := by
              apply List.eq_nil_of_length_eq_zero; omega
            refine ⟨?_, ?_⟩
            · simp [conn.setPc]; omega
            · simp [conn.setPc, PumpPc.inflight, hp, hw] at h2 ⊢
              rw [h2]
          · simp at h
    · simp at h
  | pumpSelect k =>
    simp only [step, writePump.select] at h
    split at h
    · rename_i hp
      cases k with
      | closing =>
        simp only at h
        split at h
        · simp at h; subst h
          simp [PumpPc.inflight, hp] at h2 ⊢
          exact ⟨h1, h2⟩
        · simp at h
      | queue =>
        simp only at h
        split at h
        · simp at h
        · rename_i r rest hw
          simp at h; subst h
          simp [PumpPc.inflight, hp, hw] at h1 h2 ⊢
          exact ⟨by omega, h2⟩
    · simp at h
  | pumpWrite o =>
    simp only [step, writePump.write] at h
    split at h
    · rename_i r hp
      cases o <;>
        (simp at h; subst h
         simp [PumpPc.inflight, hp, conn.consume] at h2 ⊢
         exact ⟨h1, h2⟩)
    · simp at h
  | close =>
    simp only [step, conn.Close] at h
    split at h
    · simp [Step.state] at h
    · simp [Step.state] at h; subst h
      exact ⟨h1, h2⟩

theorem run_inv {c c2 : conn} (acts : List Action) (h : run c acts = .next c2)
    (hi : c.Inv) : c2.Inv := by
  induction acts generalizing c with
  | nil =>
    simp [run] at h
    subst h
    exact hi
  | cons a as ih =>
    simp only [run] at h
    split at h
    · rename_i c1 hs
      exact ih h (step_inv hs hi)
    · simp at h
    · simp at h

theorem step_closing {c c2 : conn} {a : Action} (h : step c a = .next c2)
    (hc : c.closing = true) : c2.closing = true := by
  cases a with
  | newWriter =>
    simp [step, conn.NewWriter] at h
    subst h
    exact hc
  | write w p =>
    simp only [step, asyncWriter.Write] at h
    split at h
    · simp [Step.state] at h
    · simp [Step.state] at h
      subst h
      exact hc
  | flushEnter w =>
    simp only [step, asyncWriter.FlushEnter] at h
    split at h
    · simp at h
    · simp at h
    · split at h <;> (simp at h; subst h; exact hc)
  | flushSelect w k =>
    simp only [step, asyncWriter.FlushSelect] at h
    split at h
    · cases k with
      | closing =>
        simp [hc] at h
        subst h
        exact hc
      | queue =>
        simp only at h
        split at h
        · simp at h; subst h; exact hc
        · split at h
          · simp at h; subst h; exact hc
          · simp at h
    · simp at h
  | pumpSelect k =>
    simp only [step, writePump.select] at h
    split at h
    · cases k with
      | closing =>
        simp [hc] at h
        subst h
        rfl
      | queue =>
        simp only at h
        split at h
        · simp at h
        · simp at h; subst h; exact hc
    · simp at h
  | pumpWrite o =>
    simp only [step, writePump.write] at h
    split at h
    · cases o <;> (simp at h; subst h; exact hc)
    · simp at h
  | close =>
    simp [step, conn.Close, hc, Step.state] at h

theorem run_closing {c c2 : conn} (acts : List Action) (h : run c acts = .next c2)
    (hc : c.closing = true) : c2.closing = true := by
  induction acts generalizing c with
  | nil =>
    simp [run] at h
    subst h
    exact hc
  | cons a as ih =>
    simp only [run] at h
    split at h
    · rename_i c1 hs
      exact ih h (step_closing hs hc)
    · simp at h
    · simp at h

theorem pcOf_setPc (c : conn) (w : Nat) (pc0 pc : FlushPc) (h : c.pcOf w = some pc0) :
    (c.setPc w pc).pcOf w = some pc := by
  simp only [conn.pcOf, conn.setPc] at h ⊢
  cases hw : c.writers[w]? with
  | none => simp [hw] at h
  | some wr => simp [hw]

theorem bufOf_setPc (c : conn) (w v : Nat) (pc : FlushPc) :
    (c.setPc w pc).bufOf v = c.bufOf v := by
  simp only [conn.bufOf, conn.setPc]
  by_cases hv : w = v
  · subst hv
    cases hw : c.writers[w]? <;> simp [hw]
  · simp [List.getElem?_modify_ne _ _ hv]

theorem NewConn_inv {opts : List ConnOption} {dial : Except String (Option String)}
    {c0 : conn} (h : NewConn opts dial = .ok c0) : c0.Inv ∧ c0.closing = false := by
  simp only [NewConn] at h
  split at h
  · simp at h
  · simp at h
    subst h
    simp [conn.Inv, conn.handed, PumpPc.inflight]

theorem pump_one (c : conn) (r : Nat) (rest : List Nat) (o : WriteOutcome)
    (hp : c.pump = .selecting) (hw : c.wch = r :: rest) :
    ∃ c2, run c [.pumpSelect .queue, .pumpWrite o] = .next c2 ∧ c2.pump = .selecting ∧
      c2.wch = rest ∧ c2.closing = c.closing ∧ c2.handed = c.handed ++ [r] ∧
      c2.attempts.map (fun a => a.outcome) = c.attempts.map (fun a => a.outcome) ++ [o] := by
  cases o <;>
    simp [run, step, writePump.select, writePump.write, hp, hw, conn.handed, conn.consume]

/-- C1 (counterexample).  On a connection just made by `NewConn`, the first
`Close()` returns and the second `Close()` panics. -/
theorem close_twice_panics :
    ∃ c0 c1 e, NewConn [] (.ok none) = .ok c0 ∧ conn.Close c0 = .next (c1, e) ∧
      conn.Close c1 = .panic "close of closed channel" :=
  ⟨_, _, _, rfl, rfl, rfl⟩

/-- C1 (amended).  On an open connection `Close()` closes the shutdown signal
and the transport and returns the transport close error, leaving queue, pump
and writers as they are; after that, whatever else runs on the connection,
every further `Close()` panics: the shutdown signal is not guarded against
being closed twice. -/
theorem close_once_then_panics (c : conn) (hopen : c.closing = false) :
    ∃ c1, conn.Close c = .next (c1, c.wsCloseErr) ∧ c1.closing = true ∧
      c1.wsClosed = true ∧ c1.wch = c.wch ∧ c1.pump = c.pump ∧ c1.writers = c.writers ∧
      ∀ acts c2, run c1 acts = .next c2 →
        conn.Close c2 = .panic "close of closed channel" := by
  refine ⟨{ c with closing := true, wsClosed := true }, ?_, rfl, rfl, rfl, rfl, rfl, ?_⟩
  · simp [conn.Close, hopen]
  · intro acts c2 h
    have hc : c2.closing = true := run_closing acts h rfl
    simp [conn.Close, hc]

/-- C1 (amended) at a fresh connection with the default queue size. -/
theorem close_once_then_panics_witness :
    (freshConn 100 none).closing = false ∧
    ∃ c1, conn.Close (freshConn 100 none) = .next (c1, (freshConn 100 none).wsCloseErr) ∧
      c1.closing = true ∧ c1.wsClosed = true ∧ c1.wch = (freshConn 100 none).wch ∧
      c1.pump = (freshConn 100 none).pump ∧ c1.writers = (freshConn 100 none).writers ∧
      ∀ acts c2, run c1 acts = .next c2 →
        conn.Close c2 = .panic "close of closed channel" :=
  ⟨rfl, close_once_then_panics (freshConn 100 none) rfl⟩

/-- C2.  When the shutdown signal is already closed, a call of `Flush()` on any
writer, whatever the queue holds, returns nil at its first `select`: the queue,
the history of accepted messages, the pump and every buffer are unchanged. -/
theorem flush_after_close_is_noop (c : conn) (w : Nat) (pc : FlushPc)
    (hclosed : c.closing = true) (hw : c.pcOf w = some pc) (hpc : pc ≠ .second) :
    ∃ c2, asyncWriter.FlushEnter c w = .next c2 ∧ c2.pcOf w = some (.returned none) ∧
      c2.wch = c.wch ∧ c2.QueueSize = c.QueueSize ∧ c2.enqueued = c.enqueued ∧
      c2.pump = c.pump ∧ c2.attempts = c.attempts ∧ c2.closing = true ∧
      ∀ v, c2.bufOf v = c.bufOf v := by
  refine ⟨c.setPc w (.returned none), ?_, pcOf_setPc c w pc _ hw, rfl, rfl, rfl, rfl, rfl,
    hclosed, fun v => bufOf_setPc c w v _⟩
  simp only [asyncWriter.FlushEnter, hw]
  cases pc with
  | idle => simp [hclosed]
  | second => exact absurd rfl hpc
  | returned e => simp [hclosed]

/-- C2 at `closedFull`, a reachable closed connection whose queue is full. -/
theorem flush_after_close_is_noop_witness :
    run (freshConn 1 none) closedFullSchedule = .next closedFull ∧
    closedFull.wch.length = closedFull.QueueSize ∧
    ∃ c2, asyncWriter.FlushEnter closedFull 1 = .next c2 ∧
      c2.pcOf 1 = some (.returned none) ∧
      c2.wch = closedFull.wch ∧ c2.QueueSize = closedFull.QueueSize ∧
      c2.enqueued = closedFull.enqueued ∧
      c2.pump = closedFull.pump ∧ c2.attempts = closedFull.attempts ∧ c2.closing = true ∧
      ∀ v, c2.bufOf v = closedFull.bufOf v :=
  ⟨by decide, by decide,
    flush_after_close_is_noop closedFull 1 .idle (by decide) (by decide) (by decide)⟩

/-- C3 (counterexample).  With `QueueSize` 0 and the connection open, `Flush()`
completes although it is not the case that fewer than `QueueSize` messages are
pending, and the queue does not get the message appended: the pump takes it
directly. -/
theorem flush_completes_on_unbuffered_queue :
    ∃ c0 cB, NewConn [WithQueueSize 0] (.ok none) = .ok c0 ∧
      run c0 unbufferedSchedule = .next unbufferedWaiting ∧
      unbufferedWaiting.closing = false ∧
      asyncWriter.FlushSelect unbufferedWaiting 0 .queue = .next cB ∧
      cB.pcOf 0 = some (.returned none) ∧
      ¬ (unbufferedWaiting.wch.length < unbufferedWaiting.QueueSize) ∧
      cB.wch ≠ unbufferedWaiting.wch ++ [0] ∧ cB.pump = .holding 0 :=
  ⟨_, _, rfl, by decide, rfl, rfl, by decide, by decide, by decide, rfl⟩

/-- C3 (amended).  On every reachable open connection: at most `QueueSize`
messages are pending; `Flush()` never panics; its first `select` only moves on
to the second; the shutdown case of the second `select` cannot be taken; the
send case, when taken, returns nil with the writer's buffer accepted as exactly
one message, either appended at the tail of the queue, which requires fewer
than `QueueSize` pending messages, or, when `QueueSize` is 0, taken directly by
the pump waiting at its `select`; with `QueueSize` at least 1 and `QueueSize`
messages pending the send case cannot be taken; and with room in the queue the
send case can be taken. -/
theorem flush_open_backpressure (opts : List ConnOption)
    (dial : Except String (Option String)) (c0 c : conn) (acts : List Action) (w : Nat)
    (hnew : NewConn opts dial = .ok c0) (hrun : run c0 acts = .next c)
    (hopen : c.closing = false) :
    c.wch.length ≤ c.QueueSize ∧
    (∀ msg, asyncWriter.FlushEnter c w ≠ .panic msg) ∧
    (∀ k msg, asyncWriter.FlushSelect c w k ≠ .panic msg) ∧
    (∀ c2, asyncWriter.FlushEnter c w = .next c2 →
      c2.pcOf w = some .second ∧ c2.wch = c.wch ∧ c2.enqueued = c.enqueued ∧
      c2.pump = c.pump) ∧
    asyncWriter.FlushSelect c w .closing = .blocked ∧
    (∀ c2, asyncWriter.FlushSelect c w .queue = .next c2 →
      c2.pcOf w = some (.returned none) ∧ c2.enqueued = c.enqueued ++ [w] ∧
      c2.bufOf w = c.bufOf w ∧
      ((c.wch.length < c.QueueSize ∧ c2.wch = c.wch ++ [w] ∧ c2.pump = c.pump) ∨
       (c.QueueSize = 0 ∧ c.pump = .selecting ∧ c2.wch = c.wch ∧ c2.pump = .holding w))) ∧
    (0 < c.QueueSize → c.wch.length = c.QueueSize →
      asyncWriter.FlushSelect c w .queue = .blocked) ∧
    (c.pcOf w = some .second → c.wch.length < c.QueueSize →
      ∃ c2, asyncWriter.FlushSelect c w .queue = .next c2) := by
  have hinv : c.Inv := run_inv acts hrun (NewConn_inv hnew).1
  refine ⟨hinv.1, ?_, ?_, ?_, ?_, ?_, ?_, ?_⟩
  · intro msg
    simp only [asyncWriter.FlushEnter]
    split <;> simp [hopen]
  · intro k msg
    simp only [asyncWriter.FlushSelect]
    split
    · cases k
      · simp [hopen]
      · simp only
        split
        · simp
        · split <;> simp
    · simp
  · intro c2 h
    cases hpc : c.pcOf w with
    | none => simp [asyncWriter.FlushEnter, hpc] at h
    | some pc0 =>
      cases pc0 <;> simp [asyncWriter.FlushEnter, hpc, hopen] at h
      all_goals (subst h; exact ⟨pcOf_setPc c w _ _ hpc, rfl, rfl, rfl⟩)
  · simp only [asyncWriter.FlushSelect]
    split <;> simp [hopen]
  · intro c2 h
    simp only [asyncWriter.FlushSelect] at h
    split at h
    · rename_i hpc
      split at h
      · rename_i hlt
        simp at h
        subst h
        refine ⟨?_, rfl, ?_, Or.inl ⟨hlt, rfl, rfl⟩⟩
        · exact pcOf_setPc c w _ _ hpc
        · exact bufOf_setPc c w w _
      · split at h
        · rename_i hq
          simp at h
          subst h
          refine ⟨?_, rfl, ?_, Or.inr ⟨hq.1, hq.2, rfl, rfl⟩⟩
          · exact pcOf_setPc c w _ _ hpc
          · exact bufOf_setPc c w w _
        · simp at h
    · simp at h
  · intro hpos hfull
    simp only [asyncWriter.FlushSelect]
    split
    · rw [if_neg (by omega), if_neg (by intro hq; omega)]
    · rfl
  · intro hpc hlt
    simp [asyncWriter.FlushSelect, hpc, hlt]

/-- C3 (amended) at `fullWaiting`, a reachable open connection whose queue of
size 1 is full while writer 1 is inside `Flush`. -/
theorem flush_open_backpressure_witness :
    NewConn [WithQueueSize 1] (.ok none) = .ok (freshConn 1 none) ∧
    run (freshConn 1 none) fullWaitingSchedule = .next fullWaiting ∧
    fullWaiting.closing = false ∧
    (fullWaiting.wch.length ≤ fullWaiting.QueueSize ∧
    (∀ msg, asyncWriter.FlushEnter fullWaiting 1 ≠ .panic msg) ∧
    (∀ k msg, asyncWriter.FlushSelect fullWaiting 1 k ≠ .panic msg) ∧
    (∀ c2, asyncWriter.FlushEnter fullWaiting 1 = .next c2 →
      c2.pcOf 1 = some .second ∧ c2.wch = fullWaiting.wch ∧
      c2.enqueued = fullWaiting.enqueued ∧ c2.pump = fullWaiting.pump) ∧
    asyncWriter.FlushSelect fullWaiting 1 .closing = .blocked ∧
    (∀ c2, asyncWriter.FlushSelect fullWaiting 1 .queue = .next c2 →
      c2.pcOf 1 = some (.returned none) ∧ c2.enqueued = fullWaiting.enqueued ++ [1] ∧
      c2.bufOf 1 = fullWaiting.bufOf 1 ∧
      ((fullWaiting.wch.length < fullWaiting.QueueSize ∧ c2.wch = fullWaiting.wch ++ [1] ∧
          c2.pump = fullWaiting.pump) ∨
       (fullWaiting.QueueSize = 0 ∧ fullWaiting.pump = .selecting ∧
          c2.wch = fullWaiting.wch ∧ c2.pump = .holding 1))) ∧
    (0 < fullWaiting.QueueSize → fullWaiting.wch.length = fullWaiting.QueueSize →
      asyncWriter.FlushSelect fullWaiting 1 .queue = .blocked) ∧
    (fullWaiting.pcOf 1 = some .second → fullWaiting.wch.length < fullWaiting.QueueSize →
      ∃ c2, asyncWriter.FlushSelect fullWaiting 1 .queue = .next c2)) :=
  ⟨rfl, by decide, rfl,
    flush_open_backpressure [WithQueueSize 1] (.ok none) (freshConn 1 none) fullWaiting
      fullWaitingSchedule 1 rfl (by decide) rfl⟩

/-- C4.  On every connection reachable from `NewConn`, under every schedule, the
messages accepted from `Flush()` are, in order, the messages the pump has handed
to the transport, then the one it holds (at most one), then those still queued:
what the pump handed to the transport is the sequence of messages taken from the
queue before the one it holds, an initial segment of what was flushed, in flush
order, each message once; the messages the transport took in full are among
them in the same order, and are all of them when no transport use failed. -/
theorem pump_delivers_in_flush_order (opts : List ConnOption)
    (dial : Except String (Option String)) (c0 c : conn) (acts : List Action)
    (hnew : NewConn opts dial = .ok c0) (hrun : run c0 acts = .next c) :
    c.enqueued = c.dequeued ++ c.wch ∧ c.dequeued = c.handed ++ c.pump.inflight ∧
    c.pump.inflight.length ≤ 1 ∧ c.handed <+: c.enqueued ∧
    c.handed.length + c.pump.inflight.length + c.wch.length = c.enqueued.length ∧
    c.delivered.Sublist c.enqueued ∧
    ((∀ a ∈ c.attempts, a.outcome = .ok) → c.delivered = c.handed) := by
  have hinv : c.Inv := run_inv acts hrun (NewConn_inv hnew).1
  have h2 := hinv.2
  have hpre : c.handed <+: c.enqueued := by
    rw [h2, List.append_assoc]
    exact List.prefix_append _ _
  refine ⟨by simpa [conn.dequeued] using h2, rfl, ?_, hpre, ?_, ?_, ?_⟩
  · cases c.pump <;> simp [PumpPc.inflight]
  · rw [h2]
    simp only [List.length_append]
  · exact (List.Sublist.map _ (List.filter_sublist _)).trans hpre.sublist
  · intro hall
    simp only [conn.delivered, conn.handed]
    congr 1
    exact List.filter_eq_self.mpr (fun a ha => by simpa using hall a ha)

theorem run_append {c c1 : conn} (as bs : List Action) (h : run c as = .next c1) :
    run c (as ++ bs) = run c1 bs := by
  induction as generalizing c with
  | nil =>
    simp [run] at h
    subst h
    rfl
  | cons a as ih =>
    simp only [run, List.cons_append] at h ⊢
    split at h
    · exact ih h
    · simp at h
    · simp at h

theorem step_exit {c1 c2 : conn} {a : Action} (h : step c1 a = .next c2)
    (hex : c2.pump = .exited) :
    c1.pump = .exited ∨ (a = .pumpSelect .closing ∧ c1.closing = true) := by
  cases a with
  | newWriter =>
    simp [step, conn.NewWriter] at h
    subst h
    exact Or.inl hex
  | write w p =>
    simp only [step, asyncWriter.Write] at h
    split at h
    · simp [Step.state] at h
    · simp [Step.state] at h
      subst h
      exact Or.inl hex
  | flushEnter w =>
    simp only [step, asyncWriter.FlushEnter] at h
    split at h
    · simp at h
    · simp at h
    · split at h <;> (simp at h; subst h; exact Or.inl hex)
  | flushSelect w k =>
    simp only [step, asyncWriter.FlushSelect] at h
    split at h
    · cases k with
      | closing =>
        simp only at h
        split at h
        · simp at h; subst h; exact Or.inl hex
        · simp at h
      | queue =>
        simp only at h
        split at h
        · simp at h; subst h; exact Or.inl hex
        · split at h
          · simp at h; subst h; simp at hex
          · simp at h
    · simp at h
  | pumpSelect k =>
    simp only [step, writePump.select] at h
    split at h
    · cases k with
      | closing =>
        simp only at h
        split at h
        · rename_i hc
          exact Or.inr ⟨rfl, hc⟩
        · simp at h
      | queue =>
        simp only at h
        split at h
        · simp at h
        · simp at h; subst h; simp at hex
    · simp at h
  | pumpWrite o =>
    simp only [step, writePump.write] at h
    split at h
    · cases o <;> (simp at h; subst h; simp [conn.consume] at hex)
    · simp at h
  | close =>
    simp only [step, conn.Close] at h
    split at h
    · simp [Step.state] at h
    · simp [Step.state] at h; subst h
      exact Or.inl hex

/-- C9.  From any open connection with the pump at its `select`, the pump
cannot exit, and for every
content of the queue and every outcome per message, the pump takes and attempts
every queued message in order and is back at its `select`; whatever the outcome
of a transport write, the pump returns to its `select` with queue and shutdown
signal untouched; and the pump exits only by taking the shutdown case of its
`select` with the signal closed. -/
theorem pump_survives_write_failures (c : conn) (outs : List WriteOutcome)
    (hopen : c.closing = false) (hp : c.pump = .selecting)
    (hlen : outs.length = c.wch.length) :
    writePump.select c .closing = .blocked ∧
    (∃ c2, run c (pumpSchedule outs) = .next c2 ∧ c2.pump = .selecting ∧ c2.wch = [] ∧
      c2.handed = c.handed ++ c.wch ∧
      c2.attempts.map (fun a => a.outcome) = c.attempts.map (fun a => a.outcome) ++ outs) ∧
    (∀ (c1 : conn) (r : Nat) (o : WriteOutcome), c1.pump = .holding r →
      ∃ c2, writePump.write c1 o = .next c2 ∧ c2.pump = .selecting ∧ c2.wch = c1.wch ∧
        c2.closing = c1.closing) ∧
    (∀ (c1 c2 : conn) (a : Action), step c1 a = .next c2 → c2.pump = .exited →
      c1.pump = .exited ∨ (a = .pumpSelect .closing ∧ c1.closing = true)) := by
  refine ⟨?_, ?_, ?_, ?_⟩
  · simp [writePump.select, hp, hopen]
  · clear hopen
    induction outs generalizing c with
    | nil =>
      have hw : c.wch = [] := List.eq_nil_of_length_eq_zero (by simpa using hlen.symm)
      exact ⟨c, rfl, hp, hw, by simp [hw], by simp⟩
    | cons o os ih =>
      cases hw : c.wch with
      | nil => simp [hw] at hlen
      | cons r rest =>
        obtain ⟨c1, hr1, hp1, hw1, _, hh1, ho1⟩ := pump_one c r rest o hp hw
        have hlen1 : os.length = c1.wch.length := by
          rw [hw1]; simp [hw] at hlen; exact hlen
        obtain ⟨c2, hr2, hp2, hw2, hh2, ho2⟩ := ih c1 hp1 hlen1
        refine ⟨c2, ?_, hp2, hw2, ?_, ?_⟩
        · have happ := run_append _ (pumpSchedule os) hr1
          simp only [List.cons_append, List.nil_append] at happ
          simp only [pumpSchedule]
          rw [happ]
          exact hr2
        · rw [hh2, hh1, hw1]; simp
        · rw [ho2, ho1]; simp
  · intro c1 r o hr
    cases o <;> simp [writePump.write, hr, conn.consume]
  · intro c1 c2 a h hex
    exact step_exit h hex

theorem intercalate_go_acc (sep : String) (l : List String) (acc : String) :
    String.intercalate.go acc sep l = acc ++ String.intercalate.go "" sep l := by
  induction l generalizing acc with
  | nil => simp [String.intercalate.go]
  | cons a as ih =>
    simp only [String.intercalate.go]
    rw [ih (acc ++ sep ++ a), ih ("" ++ sep ++ a)]
    simp [String.append_assoc]

theorem intercalate_cons_cons (sep a b : String) (l : List String) :
    sep.intercalate (a :: b :: l) = a ++ sep ++ sep.intercalate (b :: l) := by
  simp only [String.intercalate, String.intercalate.go]
  rw [intercalate_go_acc sep l (a ++ sep ++ b), intercalate_go_acc sep l b]
  simp [String.append_assoc]

theorem encodeElems_eq (xs : List JSON) :
    encodeElems xs = ",".intercalate (xs.map JSON.encode) := by
  induction xs with
  | nil => simp [encodeElems, String.intercalate]
  | cons x rest ih =>
    cases rest with
    | nil => simp [encodeElems, String.intercalate, String.intercalate.go]
    | cons y rest2 =>
      rw [encodeElems, ih]
      simp only [List.map_cons]
      rw [intercalate_cons_cons]

theorem serializableElems_iff (xs : List JSON) :
    serializableElems xs = true ↔ ∀ a ∈ xs, a.serializable = true := by
  induction xs with
  | nil => simp [serializableElems]
  | cons x rest ih => simp [serializableElems, ih]

/-- C4 at `pumpBusy`, reached after two flushes, one transport write and one
more dequeue. -/
theorem pump_delivers_in_flush_order_witness :
    NewConn [WithQueueSize 2] (.ok none) = .ok (freshConn 2 none) ∧
    run (freshConn 2 none) pumpBusySchedule = .next pumpBusy ∧
    pumpBusy.enqueued = [0, 1] ∧ pumpBusy.handed = [0] ∧
    (pumpBusy.enqueued = pumpBusy.dequeued ++ pumpBusy.wch ∧
     pumpBusy.dequeued = pumpBusy.handed ++ pumpBusy.pump.inflight ∧
     pumpBusy.pump.inflight.length ≤ 1 ∧ pumpBusy.handed <+: pumpBusy.enqueued ∧
     pumpBusy.handed.length + pumpBusy.pump.inflight.length + pumpBusy.wch.length =
       pumpBusy.enqueued.length ∧
     pumpBusy.delivered.Sublist pumpBusy.enqueued ∧
     ((∀ a ∈ pumpBusy.attempts, a.outcome = .ok) → pumpBusy.delivered = pumpBusy.handed)) :=
  ⟨rfl, by decide, rfl, rfl,
    pump_delivers_in_flush_order [WithQueueSize 2] (.ok none) (freshConn 2 none) pumpBusy
      pumpBusySchedule rfl (by decide)⟩

/-- C9 at `twoQueued` with the first transport use failing and the second
succeeding. -/
theorem pump_survives_write_failures_witness :
    run (freshConn 2 none) twoQueuedSchedule = .next twoQueued ∧
    twoQueued.closing = false ∧ twoQueued.pump = .selecting ∧
    [WriteOutcome.nextWriterErr, WriteOutcome.ok].length = twoQueued.wch.length ∧
    (writePump.select twoQueued .closing = .blocked ∧
    (∃ c2, run twoQueued (pumpSchedule [.nextWriterErr, .ok]) = .next c2 ∧
      c2.pump = .selecting ∧ c2.wch = [] ∧
      c2.handed = twoQueued.handed ++ twoQueued.wch ∧
      c2.attempts.map (fun a => a.outcome) =
        twoQueued.attempts.map (fun a => a.outcome) ++ [.nextWriterErr, .ok]) ∧
    (∀ (c1 : conn) (r : Nat) (o : WriteOutcome), c1.pump = .holding r →
      ∃ c2, writePump.write c1 o = .next c2 ∧ c2.pump = .selecting ∧ c2.wch = c1.wch ∧
        c2.closing = c1.closing) ∧
    (∀ (c1 c2 : conn) (a : Action), step c1 a = .next c2 → c2.pump = .exited →
      c1.pump = .exited ∨ (a = .pumpSelect .closing ∧ c1.closing = true))) :=
  ⟨by decide, rfl, rfl, rfl,
    pump_survives_write_failures twoQueued [.nextWriterErr, .ok] rfl rfl rfl⟩

/-! ## Read path: theorems -/

/-- `NextReader` returns an error exactly when the transport call returns one or
the frame is not a text frame, and when the reader of a text frame ends
normally the buffer holds the whole body. -/
theorem nextReader_cases (res : NextReaderResult) :
    ((conn.NextReader res).2 ≠ none ↔
      (res.err ≠ none ∨ res.messageType ≠ TextMessage)) ∧
    (res.err = none → res.messageType = TextMessage → res.r.failure = none →
      conn.NextReader res = (some res.r.body, none)) := by
  constructor
  · cases he : res.err with
    | some e => simp [conn.NextReader, he]
    | none =>
      by_cases hm : res.messageType = TextMessage <;> simp [conn.NextReader, he, hm]
  · intro he hm hf
    simp [conn.NextReader, he, hm, Buffer.ReadFrom, hf]

/-- C7 (failing input).  For a text frame whose reader delivers one of the two
bytes of the body and then fails, the transport call itself reporting no error,
`NextReader` returns a nil error and a buffer with that one byte. -/
theorem nextReader_returns_truncated_body :
    truncatedFrame.err = none ∧ truncatedFrame.messageType = TextMessage ∧
    truncatedFrame.r.body = [104, 105] ∧
    (Buffer.ReadFrom [] truncatedFrame.r).2.2 = some "unexpected EOF" ∧
    conn.NextReader truncatedFrame = (some [104], none) := by
  decide

/-! ## Emit: theorems -/

/-- C8.  On a context whose writer factory hands out `NopFlusher` writers over a
buffer, for every event name and every list of serializable arguments, `Emit`
returns no error and appends to the buffer the digit 2, the compact JSON array
of the event name followed by the arguments in order, and one line break; with
no arguments the array holds the event name only. -/
theorem emit_writes_event_packet (ctx : Context (WriterFactory String)) (e : String)
    (args : List JSON) (b : String)
    (hwf : ctx.wf = testWriterFactory bytesBuffer)
    (hser : ∀ a ∈ args, a.serializable = true) :
    ctx.Emit e args b =
      (none, b ++ "2" ++ ("[" ++ ",".intercalate (quote e :: args.map JSON.encode) ++ "]"
        ++ "\n")) ∧
    ctx.Emit e [] b = (none, b ++ "2" ++ ("[" ++ quote e ++ "]" ++ "\n")) := by
  have hs : (JSON.arr (JSON.str e :: args)).serializable = true := by
    simp [JSON.serializable, serializableElems, serializableElems_iff]
    exact hser
  have hs0 : (JSON.arr [JSON.str e]).serializable = true := by
    simp [JSON.serializable, serializableElems]
  constructor
  · simp only [Context.Emit, Marshal, hs, hwf, testWriterFactory, NopFlusher,
      nopFlusher.Write, nopFlusher.Flush, bytesBuffer, PacketType.digit, if_true]
    simp [JSON.encode, encodeElems_eq]
  · simp only [Context.Emit, Marshal, hs0, hwf, testWriterFactory, NopFlusher,
      nopFlusher.Write, nopFlusher.Flush, bytesBuffer, PacketType.digit, if_true]
    simp [JSON.encode, encodeElems]

/-- C8 at the last case of `TestContext_Emit`, with the four expected strings of
that test. -/
theorem emit_writes_event_packet_witness :
    testContext.wf = testWriterFactory bytesBuffer ∧
    (∀ a ∈ [JSON.obj [("id", .num 15), ("msg", .str "hello")]], a.serializable = true) ∧
    (testContext.Emit "custom" [JSON.obj [("id", .num 15), ("msg", .str "hello")]] "" =
      (none, "" ++ "2" ++ ("[" ++ ",".intercalate
        (quote "custom" :: [JSON.obj [("id", .num 15), ("msg", .str "hello")]].map JSON.encode)
        ++ "]" ++ "\n")) ∧
     testContext.Emit "custom" [] "" =
      (none, "" ++ "2" ++ ("[" ++ quote "custom" ++ "]" ++ "\n"))) ∧
    testContext.Emit "hello" [] "" = (none, "2[\"hello\"]\n") ∧
    testContext.Emit "string" [.str "hoge"] "" = (none, "2[\"string\",\"hoge\"]\n") ∧
    testContext.Emit "number" [.num 1] "" = (none, "2[\"number\",1]\n") ∧
    testContext.Emit "custom" [JSON.obj [("id", .num 15), ("msg", .str "hello")]] "" =
      (none, "2[\"custom\",\x7b\"id\":15,\"msg\":\"hello\"\x7d]\n") :=
  ⟨rfl, by decide,
    emit_writes_event_packet testContext "custom"
      [JSON.obj [("id", .num 15), ("msg", .str "hello")]] "" rfl (by decide),
    by decide, by decide, by decide, by decide⟩

/-! ## Dispatch: theorems -/

theorem lastRegistered_cons {K W : Type} [DecidableEq K] (r : K × Handler W)
    (rest : List (K × Handler W)) (k : K) :
    lastRegistered (r :: rest) k =
      (match lastRegistered rest k with
       | some h => some h
       | none => if r.1 = k then some r.2 else none) := by
  unfold lastRegistered
  rw [List.filter_cons]
  generalize List.filter (fun r => decide (r.1 = k)) rest = l
  by_cases hk : r.1 = k
  · rw [if_pos (by simpa using hk), List.getLast?_cons]
    cases l.getLast? <;> simp [hk]
  · rw [if_neg (by simpa using hk)]
    cases l.getLast? <;> simp [hk]

theorem lastRegistered_of_registered {K W : Type} [DecidableEq K]
    (regs : List (K × Handler W)) (k : K) (h : registered regs k = true) :
    ∃ hd, lastRegistered regs k = some hd := by
  induction regs with
  | nil => simp [registered] at h
  | cons r rest ih =>
    rw [lastRegistered_cons]
    cases hl : lastRegistered rest k with
    | some hd => exact ⟨hd, rfl⟩
    | none =>
      by_cases hk : r.1 = k
      · exact ⟨r.2, by simp [hk]⟩
      · have hr : registered rest k = true := by
          simpa [registered, hk] using h
        obtain ⟨hd, hhd⟩ := ih hr
        rw [hl] at hhd
        cases hhd

theorem lastRegistered_of_not_registered {K W : Type} [DecidableEq K]
    (regs : List (K × Handler W)) (k : K) (h : registered regs k = false) :
    lastRegistered regs k = none := by
  induction regs with
  | nil => rfl
  | cons r rest ih =>
    have hk : ¬ r.1 = k := by
      intro hk
      simp [registered, hk] at h
    have hr : registered rest k = false := by
      simpa [registered, hk] using h
    rw [lastRegistered_cons, ih hr]
    simp [hk]

theorem EventMux_register_handlers {W : Type} (regs : List (String × Handler W))
    (m : EventMux W) (k : String) :
    (m.register regs).handlers k =
      (match lastRegistered regs k with
       | some h => some h
       | none => m.handlers k) := by
  induction regs generalizing m with
  | nil => rfl
  | cons r rest ih =>
    have hstep : m.register (r :: rest) = (m.Handle r.1 r.2).register rest := rfl
    rw [hstep, ih, lastRegistered_cons]
    cases lastRegistered rest k with
    | some h => rfl
    | none =>
      by_cases hk : r.1 = k
      · simp [EventMux.Handle, hk]
      · have hk2 : ¬ k = r.1 := fun h => hk h.symm
        simp [EventMux.Handle, hk, hk2]

theorem NamespaceMux_register_handlers {W : Type} (regs : List (String × Handler W))
    (m : NamespaceMux W) (k : String) :
    (m.register regs).handlers k =
      (match lastRegistered regs k with
       | some h => some h
       | none => m.handlers k) := by
  induction regs generalizing m with
  | nil => rfl
  | cons r rest ih =>
    have hstep : m.register (r :: rest) = (m.Handle r.1 r.2).register rest := rfl
    rw [hstep, ih, lastRegistered_cons]
    cases lastRegistered rest k with
    | some h => rfl
    | none =>
      by_cases hk : r.1 = k
      · simp [NamespaceMux.Handle, hk]
      · have hk2 : ¬ k = r.1 := fun h => hk h.symm
        simp [NamespaceMux.Handle, hk, hk2]

theorem PacketTypeMux_register_handlers {W : Type} (regs : List (PacketType × Handler W))
    (m : PacketTypeMux W) (k : PacketType) :
    (m.register regs).handlers k =
      (match lastRegistered regs k with
       | some h => some h
       | none => m.handlers k) := by
  induction regs generalizing m with
  | nil => rfl
  | cons r rest ih =>
    have hstep : m.register (r :: rest) = (m.Handle r.1 r.2).register rest := rfl
    rw [hstep, ih, lastRegistered_cons]
    cases lastRegistered rest k with
    | some h => rfl
    | none =>
      by_cases hk : r.1 = k
      · simp [PacketTypeMux.Handle, hk]
      · have hk2 : ¬ k = r.1 := fun h => hk h.symm
        simp [PacketTypeMux.Handle, hk, hk2]

/-- C5.  For each of the three muxes, after any sequence of registrations on a
new mux, dispatching a context whose key is registered returns the mux as it
was and does exactly what one call of the handler registered last for that key
does with that context; which handler that is depends only on the
registrations for that key. -/
theorem mux_dispatch_last_registration_wins {W : Type} (ctx : Context W) (tr : Trace W)
    (eregs nregs : List (String × Handler W)) (pregs : List (PacketType × Handler W))
    (he : registered eregs ctx.Event = true)
    (hn : registered nregs ctx.Namespace = true)
    (hp : registered pregs ctx.PacketType = true) :
    (∃ h, lastRegistered eregs ctx.Event = some h ∧
      EventMux.HandleSocketIO (NewEventMux.register eregs) ctx tr =
        (NewEventMux.register eregs, h.HandleSocketIO ctx tr)) ∧
    (∃ h, lastRegistered nregs ctx.Namespace = some h ∧
      NamespaceMux.HandleSocketIO (NewNamespaceMux.register nregs) ctx tr =
        (NewNamespaceMux.register nregs, h.HandleSocketIO ctx tr)) ∧
    (∃ h, lastRegistered pregs ctx.PacketType = some h ∧
      PacketTypeMux.HandleSocketIO (NewPacketTypeMux.register pregs) ctx tr =
        (NewPacketTypeMux.register pregs, h.HandleSocketIO ctx tr)) := by
  obtain ⟨h1, hh1⟩ := lastRegistered_of_registered eregs ctx.Event he
  obtain ⟨h2, hh2⟩ := lastRegistered_of_registered nregs ctx.Namespace hn
  obtain ⟨h3, hh3⟩ := lastRegistered_of_registered pregs ctx.PacketType hp
  refine ⟨⟨h1, hh1, ?_⟩, ⟨h2, hh2, ?_⟩, ⟨h3, hh3, ?_⟩⟩
  · have ht := EventMux_register_handlers eregs NewEventMux ctx.Event
    rw [hh1] at ht
    simp only [EventMux.HandleSocketIO, ht]
  · have ht := NamespaceMux_register_handlers nregs NewNamespaceMux ctx.Namespace
    rw [hh2] at ht
    simp only [NamespaceMux.HandleSocketIO, ht]
  · have ht := PacketTypeMux_register_handlers pregs NewPacketTypeMux ctx.PacketType
    rw [hh3] at ht
    simp only [PacketTypeMux.HandleSocketIO, ht]

/-- C5 at the registrations `eventRegs`, `namespaceRegs`, `packetTypeRegs` and the
context `newsContext`: the handler called is the one registered last. -/
theorem mux_dispatch_last_registration_wins_witness :
    registered eventRegs newsContext.Event = true ∧
    registered namespaceRegs newsContext.Namespace = true ∧
    registered packetTypeRegs newsContext.PacketType = true ∧
    ((∃ h, lastRegistered eventRegs newsContext.Event = some h ∧
      EventMux.HandleSocketIO (NewEventMux.register eventRegs) newsContext [] =
        (NewEventMux.register eventRegs, h.HandleSocketIO newsContext [])) ∧
    (∃ h, lastRegistered namespaceRegs newsContext.Namespace = some h ∧
      NamespaceMux.HandleSocketIO (NewNamespaceMux.register namespaceRegs) newsContext [] =
        (NewNamespaceMux.register namespaceRegs, h.HandleSocketIO newsContext [])) ∧
    (∃ h, lastRegistered packetTypeRegs newsContext.PacketType = some h ∧
      PacketTypeMux.HandleSocketIO (NewPacketTypeMux.register packetTypeRegs) newsContext [] =
        (NewPacketTypeMux.register packetTypeRegs, h.HandleSocketIO newsContext []))) ∧
    (EventMux.HandleSocketIO (NewEventMux.register eventRegs) newsContext []).2 =
      [.invoked 3 newsContext] ∧
    (NamespaceMux.HandleSocketIO (NewNamespaceMux.register namespaceRegs) newsContext []).2 =
      [.invoked 6 newsContext] ∧
    (PacketTypeMux.HandleSocketIO (NewPacketTypeMux.register packetTypeRegs)
        newsContext []).2 =
      [.invoked 3 newsContext] :=
  ⟨by decide, by decide, by decide,
    mux_dispatch_last_registration_wins newsContext [] eventRegs namespaceRegs
      packetTypeRegs (by decide) (by decide) (by decide),
    by decide, by decide, by decide⟩

theorem invocations_logged {W : Type} (tr : Trace W) (args : List String) :
    invocations (tr ++ [Effect.logged args]) = invocations tr := by
  simp [invocations, List.filter_append]

/-- C6.  For each of the three muxes, after any sequence of registrations on a
new mux, dispatching a context whose key is not registered returns the mux as it
was and only adds one log line to the trace: no application function is called;
and dispatching next a context whose key is registered does what one call of the
handler registered last for that key does. -/
theorem mux_miss_is_reported_only {W : Type} (ctx ctx2 : Context W) (tr : Trace W)
    (eregs nregs : List (String × Handler W)) (pregs : List (PacketType × Handler W))
    (he : registered eregs ctx.Event = false)
    (hn : registered nregs ctx.Namespace = false)
    (hp : registered pregs ctx.PacketType = false) :
    (EventMux.HandleSocketIO (NewEventMux.register eregs) ctx tr =
        (NewEventMux.register eregs,
          tr ++ [.logged ["[INFO] handler not found: event =",
            ctx.Event]]) ∧
      invocations (EventMux.HandleSocketIO (NewEventMux.register eregs)
          ctx tr).2 = invocations tr ∧
      ∀ h, lastRegistered eregs ctx2.Event = some h →
        (EventMux.HandleSocketIO
            (EventMux.HandleSocketIO (NewEventMux.register eregs)
            ctx tr).1
            ctx2
            (EventMux.HandleSocketIO (NewEventMux.register eregs)
            ctx tr).2).2 =
          h.HandleSocketIO ctx2
            (tr ++ [.logged ["[INFO] handler not found: event =",
              ctx.Event]])) ∧
    (NamespaceMux.HandleSocketIO (NewNamespaceMux.register nregs) ctx tr =
        (NewNamespaceMux.register nregs,
          tr ++ [.logged ["[INFO] handler not found: namespace =",
            ctx.Namespace]]) ∧
      invocations (NamespaceMux.HandleSocketIO (NewNamespaceMux.register nregs)
          ctx tr).2 = invocations tr ∧
      ∀ h, lastRegistered nregs ctx2.Namespace = some h →
        (NamespaceMux.HandleSocketIO
            (NamespaceMux.HandleSocketIO (NewNamespaceMux.register nregs)
            ctx tr).1
            ctx2
            (NamespaceMux.HandleSocketIO (NewNamespaceMux.register nregs)
            ctx tr).2).2 =
          h.HandleSocketIO ctx2
            (tr ++ [.logged ["[INFO] handler not found: namespace =",
              ctx.Namespace]])) ∧
    (PacketTypeMux.HandleSocketIO (NewPacketTypeMux.register pregs) ctx tr =
        (NewPacketTypeMux.register pregs,
          tr ++ [.logged ["[INFO] handler not found: packetType =",
            ctx.PacketType.digit]]) ∧
      invocations (PacketTypeMux.HandleSocketIO (NewPacketTypeMux.register pregs)
          ctx tr).2 = invocations tr ∧
      ∀ h, lastRegistered pregs ctx2.PacketType = some h →
        (PacketTypeMux.HandleSocketIO
            (PacketTypeMux.HandleSocketIO (NewPacketTypeMux.register pregs)
            ctx tr).1
            ctx2
            (PacketTypeMux.HandleSocketIO (NewPacketTypeMux.register pregs)
            ctx tr).2).2 =
          h.HandleSocketIO ctx2
            (tr ++ [.logged ["[INFO] handler not found: packetType =",
              ctx.PacketType.digit]])) := by
  have e1 : EventMux.HandleSocketIO (NewEventMux.register eregs) ctx tr =
      (NewEventMux.register eregs,
        tr ++ [.logged ["[INFO] handler not found: event =", ctx.Event]]) := by
    have ht : (NewEventMux.register eregs).handlers ctx.Event = none := by
      rw [EventMux_register_handlers, lastRegistered_of_not_registered eregs ctx.Event he]
      rfl
    simp only [EventMux.HandleSocketIO, ht, internal.Log]
  have e2 : NamespaceMux.HandleSocketIO (NewNamespaceMux.register nregs) ctx tr =
      (NewNamespaceMux.register nregs,
        tr ++ [.logged ["[INFO] handler not found: namespace =", ctx.Namespace]]) := by
    have ht : (NewNamespaceMux.register nregs).handlers ctx.Namespace = none := by
      rw [NamespaceMux_register_handlers, lastRegistered_of_not_registered nregs ctx.Namespace hn]
      rfl
    simp only [NamespaceMux.HandleSocketIO, ht, internal.Log]
  have e3 : PacketTypeMux.HandleSocketIO (NewPacketTypeMux.register pregs) ctx tr =
      (NewPacketTypeMux.register pregs,
        tr ++ [.logged ["[INFO] handler not found: packetType =", ctx.PacketType.digit]]) := by
    have ht : (NewPacketTypeMux.register pregs).handlers ctx.PacketType = none := by
      rw [PacketTypeMux_register_handlers, lastRegistered_of_not_registered pregs ctx.PacketType hp]
      rfl
    simp only [PacketTypeMux.HandleSocketIO, ht, internal.Log]
  refine ⟨⟨e1, ?_, ?_⟩, ⟨e2, ?_, ?_⟩, ⟨e3, ?_, ?_⟩⟩
  · rw [e1]; exact invocations_logged _ _
  · intro h hh
    rw [e1]
    have ht := EventMux_register_handlers eregs NewEventMux ctx2.Event
    rw [hh] at ht
    simp only [EventMux.HandleSocketIO, ht]
  · rw [e2]; exact invocations_logged _ _
  · intro h hh
    rw [e2]
    have ht := NamespaceMux_register_handlers nregs NewNamespaceMux ctx2.Namespace
    rw [hh] at ht
    simp only [NamespaceMux.HandleSocketIO, ht]
  · rw [e3]; exact invocations_logged _ _
  · intro h hh
    rw [e3]
    have ht := PacketTypeMux_register_handlers pregs NewPacketTypeMux ctx2.PacketType
    rw [hh] at ht
    simp only [PacketTypeMux.HandleSocketIO, ht]

/-- C6 at the registrations `eventRegs`, `namespaceRegs`, `packetTypeRegs`, the
context `strayContext`, which misses in all three, and then `newsContext`. -/
theorem mux_miss_is_reported_only_witness :
    registered eventRegs strayContext.Event = false ∧
    registered namespaceRegs strayContext.Namespace = false ∧
    registered packetTypeRegs strayContext.PacketType = false ∧
    ((EventMux.HandleSocketIO (NewEventMux.register eventRegs) strayContext noEffects =
        (NewEventMux.register eventRegs,
          noEffects ++ [.logged ["[INFO] handler not found: event =",
            strayContext.Event]]) ∧
      invocations (EventMux.HandleSocketIO (NewEventMux.register eventRegs)
          strayContext noEffects).2 = invocations noEffects ∧
      ∀ h, lastRegistered eventRegs newsContext.Event = some h →
        (EventMux.HandleSocketIO
            (EventMux.HandleSocketIO (NewEventMux.register eventRegs)
            strayContext noEffects).1
            newsContext
            (EventMux.HandleSocketIO (NewEventMux.register eventRegs)
            strayContext noEffects).2).2 =
          h.HandleSocketIO newsContext
            (noEffects ++ [.logged ["[INFO] handler not found: event =",
              strayContext.Event]])) ∧
    (NamespaceMux.HandleSocketIO (NewNamespaceMux.register namespaceRegs) strayContext noEffects =
        (NewNamespaceMux.register namespaceRegs,
          noEffects ++ [.logged ["[INFO] handler not found: namespace =",
            strayContext.Namespace]]) ∧
      invocations (NamespaceMux.HandleSocketIO (NewNamespaceMux.register namespaceRegs)
          strayContext noEffects).2 = invocations noEffects ∧
      ∀ h, lastRegistered namespaceRegs newsContext.Namespace = some h →
        (NamespaceMux.HandleSocketIO
            (NamespaceMux.HandleSocketIO (NewNamespaceMux.register namespaceRegs)
            strayContext noEffects).1
            newsContext
            (NamespaceMux.HandleSocketIO (NewNamespaceMux.register namespaceRegs)
            strayContext noEffects).2).2 =
          h.HandleSocketIO newsContext
            (noEffects ++ [.logged ["[INFO] handler not found: namespace =",
              strayContext.Namespace]])) ∧
    (PacketTypeMux.HandleSocketIO (NewPacketTypeMux.register packetTypeRegs) strayContext noEffects =
        (NewPacketTypeMux.register packetTypeRegs,
          noEffects ++ [.logged ["[INFO] handler not found: packetType =",
            strayContext.PacketType.digit]]) ∧
      invocations (PacketTypeMux.HandleSocketIO (NewPacketTypeMux.register packetTypeRegs)
          strayContext noEffects).2 = invocations noEffects ∧
      ∀ h, lastRegistered packetTypeRegs newsContext.PacketType = some h →
        (PacketTypeMux.HandleSocketIO
            (PacketTypeMux.HandleSocketIO (NewPacketTypeMux.register packetTypeRegs)
            strayContext noEffects).1
            newsContext
            (PacketTypeMux.HandleSocketIO (NewPacketTypeMux.register packetTypeRegs)
            strayContext noEffects).2).2 =
          h.HandleSocketIO newsContext
            (noEffects ++ [.logged ["[INFO] handler not found: packetType =",
              strayContext.PacketType.digit]]))) ∧
    (EventMux.HandleSocketIO
        (EventMux.HandleSocketIO (NewEventMux.register eventRegs) strayContext noEffects).1
        newsContext
        (EventMux.HandleSocketIO (NewEventMux.register eventRegs) strayContext noEffects).2).2 =
      [.logged ["[INFO] handler not found: event =", "unknown"], .invoked 3 newsContext] :=
  ⟨by decide, by decide, by decide,
    mux_miss_is_reported_only strayContext newsContext noEffects eventRegs namespaceRegs
      packetTypeRegs (by decide) (by decide) (by decide),
    by decide⟩

/-- C10.  For every inbound message: when decoding fails with an error other
than end of input, `HandleMessage` only adds one log line to the trace; when
decoding returns no error or end of input, it does what one call of the wrapped
handler does with the constructed context, or, when the context cannot be
constructed, only adds one log line; with a handler that records its calls, the
handler is called at most once, and exactly once precisely when decoding
returned no error or end of input and the context was constructed. -/
theorem handleMessage_invokes_handler_iff_decoded {W : Type} (codec : Codec W)
    (h : Handler W) (wf : W) (body : String) (tr : Trace W) :
    (∀ msg, (codec.Decode body).2 = some (.malformed msg) →
      engineioHandler.HandleMessage codec (gomasio.OverEngineIO h) wf body tr =
        tr ++ [.logged ["[ERROR] failed to decode engine.io packet", msg]]) ∧
    (((codec.Decode body).2 = none ∨ (codec.Decode body).2 = some .EOF) →
      ∀ ctx, codec.NewContext wf (codec.Decode body).1 = .ok ctx →
        engineioHandler.HandleMessage codec (gomasio.OverEngineIO h) wf body tr =
          h.HandleSocketIO ctx tr) ∧
    (((codec.Decode body).2 = none ∨ (codec.Decode body).2 = some .EOF) →
      ∀ e, codec.NewContext wf (codec.Decode body).1 = .error e →
        engineioHandler.HandleMessage codec (gomasio.OverEngineIO h) wf body tr =
          tr ++ [.logged ["[ERROR] failed to construct context", e]]) ∧
    invocations (engineioHandler.HandleMessage codec (gomasio.OverEngineIO (HandleFunc (probe 0)))
      wf body []) ≤ 1 ∧
    (invocations (engineioHandler.HandleMessage codec (gomasio.OverEngineIO (HandleFunc (probe 0)))
        wf body []) = 1 ↔
      ((codec.Decode body).2 = none ∨ (codec.Decode body).2 = some .EOF) ∧
        ∃ ctx, codec.NewContext wf (codec.Decode body).1 = .ok ctx) := by
  rcases hd : codec.Decode body with ⟨p, err⟩
  cases err with
  | none =>
    cases hc : codec.NewContext wf p with
    | error e =>
      simp [engineioHandler.HandleMessage, hd, hc, OverEngineIO, internal.Log, invocations]
    | ok ctx =>
      simp [engineioHandler.HandleMessage, hd, hc, OverEngineIO, HandleFunc, probe,
        invocations]
  | some de =>
    cases de with
    | EOF =>
      cases hc : codec.NewContext wf p with
      | error e =>
        simp [engineioHandler.HandleMessage, hd, hc, OverEngineIO, internal.Log,
          invocations]
      | ok ctx =>
        simp [engineioHandler.HandleMessage, hd, hc, OverEngineIO, HandleFunc, probe,
          invocations]
    | malformed msg =>
      simp [engineioHandler.HandleMessage, hd, OverEngineIO, internal.Log, invocations,
        DecodeError.Error]

/-- C10 at `stubCodec`: a well-formed packet, a malformed one, and end of input
without a packet. -/
theorem handleMessage_invokes_handler_iff_decoded_witness :
    engineioHandler.HandleMessage stubCodec (gomasio.OverEngineIO (HandleFunc (probe 0))) 0
        "2[\"news\"]" [] =
      [.invoked 0 newsContext] ∧
    engineioHandler.HandleMessage stubCodec (gomasio.OverEngineIO (HandleFunc (probe 0))) 0
        "2[\"news" [] =
      [.logged ["[ERROR] failed to decode engine.io packet", "invalid packet"]] ∧
    engineioHandler.HandleMessage stubCodec (gomasio.OverEngineIO (HandleFunc (probe 0))) 0 "" [] =
      [.logged ["[ERROR] failed to construct context", "no packet"]] ∧
    invocations (engineioHandler.HandleMessage stubCodec
      (gomasio.OverEngineIO (HandleFunc (probe 0))) 0 "2[\"news" []) ≤ 1 :=
  ⟨by decide, by decide, by decide,
    (handleMessage_invokes_handler_iff_decoded stubCodec (HandleFunc (probe 0)) 0
      "2[\"news" []).2.2.2.1⟩

end gomasio
